import Mathlib

/-!
Shallow embedding of the state-mirroring control plane of the skaldi
jukebox (Go sources under internal/player): the playback-state model
(state.go), the event router (events.go), the IPC client (ipc.go) and the
play-at-index command (mpv.go).

Modelling conventions:
* Go `float64` values (time positions and durations) are only ever stored
  and compared for equality by the embedded code, never subjected to
  rounding or arithmetic, so they are modelled as `Rat`.
* Go `uint64` version counters are modelled as `Nat`; the embedded
  operations only ever increment by one, and no claim depends on the
  wrap-around at 2^64.
* Go maps are modelled as functions into `Option`; map deletion sets the
  key to `none`, assignment overwrites it pointwise.
* `time.Time` values are modelled as `Int` instants; the Go zero time is
  `0`, `IsZero` is `= 0` and `Before` is `<`.
-/

namespace Skaldi

/-- Embeds `resolver.Track` (internal/resolver/ytdlp.go). -/
structure Track where
  title : String
  duration : Rat
  uploader : String
  thumbnail : String
  url : String
  webpageURL : String
  isLive : Bool
deriving DecidableEq, Repr

/-- Embeds `MpvPlaylistEntry` (internal/player/state.go). -/
structure MpvPlaylistEntry where
  filename : String
  current : Bool := false
  playing : Bool := false
  id : Int := 0
deriving DecidableEq, Repr

/-- Embeds `PlaybackStatus` constants (internal/player/state.go). -/
inductive PlaybackStatus where
  | idle
  | playing
  | paused
deriving DecidableEq, Repr

/-- Embeds `QueueItem` (internal/player/state.go); the Go `Metadata *resolver.Track`
pointer becomes an `Option`. -/
structure QueueItem where
  index : Nat
  filename : String
  title : String := ""
  duration : Rat := 0
  metadata : Option Track := none
deriving DecidableEq, Repr

/-- Embeds `Snapshot` (internal/player/state.go). -/
structure Snapshot where
  version : Nat
  status : PlaybackStatus
  currentTime : Rat
  duration : Rat
  queue : List QueueItem
  history : List QueueItem
  upcoming : List QueueItem
  currentIdx : Int
  nowPlaying : Option QueueItem
deriving DecidableEq, Repr

/-- Embeds `Delta` (internal/player/state.go); each optional pointer field becomes
an `Option`. -/
structure Delta where
  version : Nat
  currentTime : Option Rat := none
  duration : Option Rat := none
  status : Option PlaybackStatus := none
  currentIdx : Option Int := none
deriving DecidableEq, Repr

/-- Embeds `State` (internal/player/state.go); the two Go maps become functions
into `Option`. -/
structure State where
  version : Nat
  idleActive : Bool
  paused : Bool
  timePos : Rat
  duration : Rat
  playlist : List MpvPlaylistEntry
  playlistPos : Int
  metadata : String → Option Track
  metaAddedAt : String → Option Int

/-- Embeds `NewState` (internal/player/state.go): empty maps, empty playlist,
position −1; the remaining fields take Go zero values. -/
def NewState : State where
  version := 0
  idleActive := false
  paused := false
  timePos := 0
  duration := 0
  playlist := []
  playlistPos := -1
  metadata := fun _ => none
  metaAddedAt := fun _ => none

/-- Embeds `State.StoreMetadata` (internal/player/state.go); `now` stands for the
`time.Now()` instant observed inside the call. -/
def State.StoreMetadata (s : State) (url : String) (track : Track) (now : Int) : State :=
  { s with
    metadata := fun k => if k = url then some track else s.metadata k
    metaAddedAt := fun k => if k = url then some now else s.metaAddedAt k
    version := s.version + 1 }

/-- Embeds `State.SetIdle` (internal/player/state.go). -/
def State.SetIdle (s : State) (idle : Bool) : State :=
  { s with idleActive := idle, version := s.version + 1 }

/-- Embeds `State.SetPaused` (internal/player/state.go): bumps the version only
when the flag actually changes. -/
def State.SetPaused (s : State) (paused : Bool) : State :=
  if s.paused ≠ paused then
    { s with paused := paused, version := s.version + 1 }
  else s

/-- Embeds `State.SetTimePos` (internal/player/state.go): no version bump. -/
def State.SetTimePos (s : State) (t : Rat) : State :=
  { s with timePos := t }

/-- Embeds `State.SetDuration` (internal/player/state.go): stores the new
duration and, when the current playlist position is valid and a metadata
entry exists under the current entry's filename, overwrites that entry's
duration as well.  No version bump. -/
def State.SetDuration (s : State) (d : Rat) : State :=
  let base := { s with duration := d }
  if 0 ≤ s.playlistPos ∧ s.playlistPos < (s.playlist.length : Int) then
    match s.playlist.get? s.playlistPos.toNat with
    | some entry =>
      match s.metadata entry.filename with
      | some track =>
        { base with
          metadata := fun k =>
            if k = entry.filename then some { track with duration := d }
            else s.metadata k }
      | none => base
    | none => base
  else base

/-- Embeds `State.SetPlaylist` (internal/player/state.go): unconditional version
bump. -/
def State.SetPlaylist (s : State) (entries : List MpvPlaylistEntry) : State :=
  { s with playlist := entries, version := s.version + 1 }

/-- Embeds `State.SetPlaylistPos` (internal/player/state.go): bumps the version
when the position changes; `timePos` and `duration` are left untouched. -/
def State.SetPlaylistPos (s : State) (pos : Int) : State :=
  { s with
    version := if pos ≠ s.playlistPos then s.version + 1 else s.version
    playlistPos := pos }

/-- Embeds `State.PruneMetadataBefore` (internal/player/state.go), as the net
effect of the Go deletion loop: a metadata key is removed exactly when it
is absent from the playlist and either the cutoff is the zero time or the
key's insertion instant (Go zero value when the key is missing from
`metaAddedAt`) lies strictly before the cutoff. -/
def State.PruneMetadataBefore (s : State) (cutoff : Int) : State :=
  let inPlaylist : String → Bool := fun k => s.playlist.any (fun e => e.filename = k)
  let doomed : String → Bool := fun k =>
    (s.metadata k).isSome && !inPlaylist k &&
      (decide (cutoff = 0) || decide ((s.metaAddedAt k).getD 0 < cutoff))
  { s with
    metadata := fun k => if doomed k then none else s.metadata k
    metaAddedAt := fun k => if doomed k then none else s.metaAddedAt k }

/-- Embeds `State.PruneMetadata` (internal/player/state.go): prune with the zero
cutoff. -/
def State.PruneMetadata (s : State) : State :=
  s.PruneMetadataBefore 0

/-- Embeds `State.Snapshot` (internal/player/state.go): project the state into an
immutable snapshot. -/
def State.snapshot (s : State) : Snapshot :=
  let status : PlaybackStatus :=
    if s.idleActive then .idle else if s.paused then .paused else .playing
  let currentIdx : Int :=
    if 0 ≤ s.playlistPos ∧ s.playlistPos < (s.playlist.length : Int) then s.playlistPos
    else -1
  let mkItem : Nat → MpvPlaylistEntry → QueueItem := fun i entry =>
    match s.metadata entry.filename with
    | some track =>
      { index := i, filename := entry.filename, title := track.title
        duration := track.duration, metadata := some track }
    | none => { index := i, filename := entry.filename }
  let queue := s.playlist.enum.map (fun p => mkItem p.1 p.2)
  { version := s.version
    status := status
    currentTime := s.timePos
    duration := s.duration
    queue := queue
    history := queue.filter (fun item => (item.index : Int) < currentIdx)
    upcoming := queue.filter (fun item => (item.index : Int) > currentIdx)
    currentIdx := currentIdx
    nowPlaying := queue.find? (fun item => (item.index : Int) = currentIdx) }

/-- Embeds `queueChanged` (internal/player/state.go). -/
def queueChanged (a b : List QueueItem) : Bool :=
  if a.length ≠ b.length then true
  else (a.zip b).any (fun p =>
    decide (p.1.filename ≠ p.2.filename) || decide (p.1.title ≠ p.2.title) ||
      decide (p.1.duration ≠ p.2.duration))

/-- Embeds `ComputeDelta` (internal/player/state.go). -/
def ComputeDelta (prev curr : Snapshot) : Option Delta :=
  if prev.version = 0 then none
  else if curr.version ≠ prev.version then
    if queueChanged prev.queue curr.queue then none
    else some
      { version := curr.version
        currentTime := some curr.currentTime
        duration := some curr.duration
        status := some curr.status
        currentIdx := some curr.currentIdx }
  else if curr.currentTime = prev.currentTime ∧ curr.duration = prev.duration then none
  else some
    { version := curr.version
      currentTime := if curr.currentTime ≠ prev.currentTime then some curr.currentTime else none
      duration := if curr.duration ≠ prev.duration then some curr.duration else none }

/-- Applying a delta to a snapshot, per the spec: overwrite exactly the
fields the delta carries (the version is always carried). -/
def applyDelta (a : Snapshot) (d : Delta) : Snapshot :=
  { a with
    version := d.version
    currentTime := d.currentTime.getD a.currentTime
    duration := d.duration.getD a.duration
    status := d.status.getD a.status
    currentIdx := d.currentIdx.getD a.currentIdx }

/-- Embeds `Manager.handlePlaylist` (internal/player/events.go), restricted to its
effect on the `State`: set the decoded playlist, then prune with the zero
cutoff.  (`checkTempFiles` touches only the temp-file registry and the
filesystem, not the `State`.) -/
def handlePlaylist (s : State) (entries : List MpvPlaylistEntry) : State :=
  (s.SetPlaylist entries).PruneMetadata

/-- A JSON value carried in the `data` field of an mpv IPC reply
(Go `interface{}`). -/
inductive MpvData where
  | null
  | bool (b : Bool)
  | num (q : Rat)
  | str (s : String)
deriving DecidableEq, Repr

/-- Embeds `Response` (internal/player/ipc.go). -/
structure Response where
  requestID : Nat
  error : String
  data : MpvData
deriving DecidableEq, Repr

/-- The channel-level view of an `IPCClient` (internal/player/ipc.go): all
that `Close` touches is whether the `quit` channel has been closed and
whether the socket connection has been closed. -/
structure IPCClient where
  quitClosed : Bool
  connClosed : Bool
deriving DecidableEq, Repr

/-- The result of `IPCClient.Close`: either the updated client, or the Go
runtime panic raised by `close` on an already-closed channel. -/
inductive CloseResult where
  | ok (c : IPCClient)
  | panicClosedChannel
deriving DecidableEq, Repr

/-- A freshly constructed client (`NewIPCClient`): `quit` open, socket
open. -/
def NewIPCClient : IPCClient :=
  { quitClosed := false, connClosed := false }

/-- Embeds `IPCClient.Close` (internal/player/ipc.go): `close(c.quit)` panics if
the channel is already closed; otherwise the socket is closed and the
reader joined. -/
def IPCClient.Close (c : IPCClient) : CloseResult :=
  if c.quitClosed then .panicClosedChannel
  else .ok { quitClosed := true, connClosed := true }

/-- The possible outcomes of `IPCClient.Exec` after the request line has
been written (internal/player/ipc.go).  `closed` is the outcome the spec
prescribes for calls pending at `Close`; the code never produces it. -/
inductive ExecResult where
  | data (v : MpvData)
  | remoteError (msg : String)
  | timeout
  | closed
deriving DecidableEq, Repr

/-- The `select` at the end of `IPCClient.Exec`: with a delivered reply,
fail with the remote error string when it is neither `"success"` nor
empty, otherwise return the data; with no reply delivered (in particular
when the connection was closed under the call), the 5-second timer fires
and the call fails with timeout. -/
def execAwait (reply : Option Response) : ExecResult :=
  match reply with
  | some resp =>
    if resp.error ≠ "success" ∧ resp.error ≠ "" then .remoteError resp.error
    else .data resp.data
  | none => .timeout

/-- Embeds `c.pending[reqID] = respChan` on the pending-reply table, keyed by
request id. -/
def pendingInsert (tbl : List Nat) (reqID : Nat) : List Nat :=
  reqID :: tbl

/-- Embeds `delete(c.pending, reqID)` on the pending-reply table. -/
def pendingDelete (tbl : List Nat) (reqID : Nat) : List Nat :=
  tbl.filter (fun id => id ≠ reqID)

/-- Embeds `IPCClient.Exec` (internal/player/ipc.go) as a function of the
pending table it starts from, the request id it was assigned, and the
reply (if any) the reader delivers for that id: the id is inserted into
the table, the call completes as `execAwait`, and the deferred
`delete(c.pending, reqID)` runs on every completion path. -/
def IPCClient.Exec (tbl : List Nat) (reqID : Nat) (reply : Option Response) :
    ExecResult × List Nat :=
  (execAwait reply, pendingDelete (pendingInsert tbl reqID) reqID)

/-- The IPC commands `Manager.PlayIndex` can issue after reading
`playlist-pos` (internal/player/mpv.go). -/
inductive IPCCall where
  | playlistMove (src dst : Int)
  | playlistPlayIndex (idx : Int)
deriving DecidableEq, Repr

/-- Embeds `Manager.PlayIndex` (internal/player/mpv.go) as the sequence of IPC
commands issued after the initial `get_property playlist-pos` read
yielded `currentIdx`: either a single `playlist-play-index targetIdx`, or
`targetIdx − currentIdx − 1` copies of `playlist-move (currentIdx+1) (-1)`
(the loop body does not depend on its counter) followed by
`playlist-play-index (currentIdx+1)`. -/
def PlayIndex (currentIdx targetIdx : Int) : List IPCCall :=
  if currentIdx < 0 ∨ targetIdx ≤ currentIdx then
    [.playlistPlayIndex targetIdx]
  else
    List.replicate (targetIdx - currentIdx - 1).toNat
        (.playlistMove (currentIdx + 1) (-1)) ++
      [.playlistPlayIndex (currentIdx + 1)]

/-- Remove the item at index `i` and append it at the tail: the effect the
spec assumes for the player command `playlist-move i (-1)`. -/
def playlistMoveToTail : List String → Nat → List String
  | [], _ => []
  | x :: xs, 0 => xs ++ [x]
  | x :: xs, i + 1 => x :: playlistMoveToTail xs i

/-- The player-side playlist model the claim quantifies over: the ordered
filenames and the current position. -/
structure MpvModel where
  playlist : List String
  pos : Int
deriving DecidableEq, Repr

/-- Modelled from the spec: how the player applies the two commands
`PlayIndex` issues — `playlist-move i (-1)` moves the item at index `i`
to the tail, `playlist-play-index i` makes `i` current. -/
def applyCall (m : MpvModel) : IPCCall → MpvModel
  | .playlistMove src dst =>
    if dst = -1 then { m with playlist := playlistMoveToTail m.playlist src.toNat } else m
  | .playlistPlayIndex idx => { m with pos := idx }

/-- Apply a sequence of IPC commands to the player model. -/
def applyCalls (m : MpvModel) (calls : List IPCCall) : MpvModel :=
  calls.foldl applyCall m

/-- Iterates `k` successive moves of the item at index `p` to the tail. -/
def moveIter : Nat → Nat → List String → List String
  | 0, _, l => l
  | k + 1, p, l => moveIter k p (playlistMoveToTail l p)

/-! ### Shared helper lemmas -/

lemma setDuration_version (s : State) (d : Rat) : (s.SetDuration d).version = s.version := by
  unfold State.SetDuration
  repeat' split
  all_goals rfl

lemma setDuration_duration (s : State) (d : Rat) : (s.SetDuration d).duration = d := by
  unfold State.SetDuration
  repeat' split
  all_goals rfl

lemma setDuration_idleActive (s : State) (d : Rat) :
    (s.SetDuration d).idleActive = s.idleActive := by
  unfold State.SetDuration
  repeat' split
  all_goals rfl

lemma setDuration_paused (s : State) (d : Rat) : (s.SetDuration d).paused = s.paused := by
  unfold State.SetDuration
  repeat' split
  all_goals rfl

lemma setDuration_timePos (s : State) (d : Rat) : (s.SetDuration d).timePos = s.timePos := by
  unfold State.SetDuration
  repeat' split
  all_goals rfl

lemma setDuration_playlist (s : State) (d : Rat) :
    (s.SetDuration d).playlist = s.playlist := by
  unfold State.SetDuration
  repeat' split
  all_goals rfl

lemma setDuration_playlistPos (s : State) (d : Rat) :
    (s.SetDuration d).playlistPos = s.playlistPos := by
  unfold State.SetDuration
  repeat' split
  all_goals rfl

lemma setDuration_metaAddedAt (s : State) (d : Rat) :
    (s.SetDuration d).metaAddedAt = s.metaAddedAt := by
  unfold State.SetDuration
  repeat' split
  all_goals rfl

lemma setDuration_metadata_some (s : State) (d : Rat) (entry : MpvPlaylistEntry)
    (track : Track) (h : 0 ≤ s.playlistPos ∧ s.playlistPos < (s.playlist.length : Int))
    (hget : s.playlist.get? s.playlistPos.toNat = some entry)
    (hmeta : s.metadata entry.filename = some track) :
    (s.SetDuration d).metadata = fun k =>
      if k = entry.filename then some { track with duration := d } else s.metadata k := by
  unfold State.SetDuration
  rw [if_pos h]
  simp only [hget, hmeta]

lemma setDuration_metadata_no_track (s : State) (d : Rat) (entry : MpvPlaylistEntry)
    (h : 0 ≤ s.playlistPos ∧ s.playlistPos < (s.playlist.length : Int))
    (hget : s.playlist.get? s.playlistPos.toNat = some entry)
    (hmeta : s.metadata entry.filename = none) :
    (s.SetDuration d).metadata = s.metadata := by
  unfold State.SetDuration
  rw [if_pos h]
  simp only [hget, hmeta]

lemma setDuration_metadata_invalid (s : State) (d : Rat)
    (h : ¬ (0 ≤ s.playlistPos ∧ s.playlistPos < (s.playlist.length : Int))) :
    (s.SetDuration d).metadata = s.metadata := by
  unfold State.SetDuration
  rw [if_neg h]

/-! ### Example states used by concrete witnesses and counterexamples -/

/-- A sample track for concrete instances. -/
def exTrack : Track :=
  { title := "T", duration := 100, uploader := "", thumbnail := ""
    url := "", webpageURL := "", isLive := false }

/-- A sample playback state with a two-entry playlist, position 1 and
metadata for the current entry. -/
def exState : State :=
  { version := 3, idleActive := false, paused := false, timePos := 7, duration := 50
    playlist := [{ filename := "a.mp3" }, { filename := "b.mp3" }], playlistPos := 1
    metadata := fun k => if k = "b.mp3" then some exTrack else none
    metaAddedAt := fun _ => none }

/-! ### C10 -/

/-- C10: `SetDuration d` stores `d` as the state's duration and, when the
playlist position is a valid index whose entry has a metadata entry,
overwrites that metadata entry's duration with `d`; version, playlist,
position, time position, flags, insertion times and every other metadata
entry are unchanged. -/
theorem c10_setDuration_frame (s : State) (d : Rat) :
    (s.SetDuration d).duration = d ∧
    (s.SetDuration d).version = s.version ∧
    (s.SetDuration d).idleActive = s.idleActive ∧
    (s.SetDuration d).paused = s.paused ∧
    (s.SetDuration d).timePos = s.timePos ∧
    (s.SetDuration d).playlist = s.playlist ∧
    (s.SetDuration d).playlistPos = s.playlistPos ∧
    (s.SetDuration d).metaAddedAt = s.metaAddedAt ∧
    ((0 ≤ s.playlistPos ∧ s.playlistPos < (s.playlist.length : Int)) →
      ∀ entry, s.playlist.get? s.playlistPos.toNat = some entry →
        ((∀ track, s.metadata entry.filename = some track →
            (s.SetDuration d).metadata entry.filename = some { track with duration := d }) ∧
          (∀ k, k ≠ entry.filename → (s.SetDuration d).metadata k = s.metadata k) ∧
          (s.metadata entry.filename = none → (s.SetDuration d).metadata = s.metadata))) ∧
    (¬ (0 ≤ s.playlistPos ∧ s.playlistPos < (s.playlist.length : Int)) →
      (s.SetDuration d).metadata = s.metadata) := by
  refine ⟨setDuration_duration s d, setDuration_version s d, setDuration_idleActive s d,
    setDuration_paused s d, setDuration_timePos s d, setDuration_playlist s d,
    setDuration_playlistPos s d, setDuration_metaAddedAt s d, ?_, setDuration_metadata_invalid s d⟩
  intro h entry hget
  refine ⟨fun track hmeta => ?_, fun k hk => ?_, fun hmeta => setDuration_metadata_no_track s d entry h hget hmeta⟩
  · rw [setDuration_metadata_some s d entry track h hget hmeta]
    simp
  · cases hmeta : s.metadata entry.filename with
    | none => rw [setDuration_metadata_no_track s d entry h hget hmeta]
    | some track =>
      rw [setDuration_metadata_some s d entry track h hget hmeta]
      simp [hk]

/-- Witness for C10 at a concrete state. -/
theorem c10_witness :
    (exState.SetDuration 42).duration = 42 ∧
    (exState.SetDuration 42).version = exState.version ∧
    (exState.SetDuration 42).metadata "b.mp3" = some { exTrack with duration := 42 } ∧
    (exState.SetDuration 42).metadata "a.mp3" = exState.metadata "a.mp3" := by
  obtain ⟨h1, h2, -, -, -, -, -, -, hin, -⟩ := c10_setDuration_frame exState 42
  have hcond : 0 ≤ exState.playlistPos ∧ exState.playlistPos < (exState.playlist.length : Int) := by
    constructor <;> decide
  have hentry : exState.playlist.get? exState.playlistPos.toNat =
      some { filename := "b.mp3" } := rfl
  obtain ⟨hsome, hother, -⟩ := hin hcond { filename := "b.mp3" } hentry
  exact ⟨h1, h2, hsome exTrack rfl, hother "a.mp3" (by decide)⟩

/-! ### C3 -/

/-- The concrete state used against C3: non-zero time position and
duration, playlist position 0. -/
def st3 : State := { NewState with timePos := 100, duration := 200, playlistPos := 0 }

/-- C3 counterexample: `SetPlaylistPos 2` on a state at position 0 leaves
`timePos` at 100 instead of resetting it to 0. -/
theorem c3_counterexample :
    st3.playlistPos ≠ (2 : Int) ∧ (st3.SetPlaylistPos 2).timePos = 100 ∧
      (st3.SetPlaylistPos 2).duration = 200 ∧ (100 : Rat) ≠ 0 ∧ (200 : Rat) ≠ 0 :=
  ⟨by decide, rfl, rfl, by decide, by decide⟩

/-- C3 amended: `SetPlaylistPos p` with `p` different from the current
position increments the version and updates the position; every other
field, in particular `timePos` and `duration`, is preserved. -/
theorem c3_setPlaylistPos_preserves_time (s : State) (p : Int) (h : p ≠ s.playlistPos) :
    s.SetPlaylistPos p = { s with version := s.version + 1, playlistPos := p } := by
  unfold State.SetPlaylistPos
  simp [h]

/-- Witness for the amended C3 at a concrete state. -/
theorem c3_witness :
    (2 : Int) ≠ st3.playlistPos ∧
      st3.SetPlaylistPos 2 = { st3 with version := st3.version + 1, playlistPos := 2 } :=
  ⟨by decide, c3_setPlaylistPos_preserves_time st3 2 (by decide)⟩

/-! ### C5 -/

/-- C5 counterexample: applying the same (empty) playlist event twice to a
fresh state changes the version again on the second application. -/
theorem c5_counterexample :
    (handlePlaylist (handlePlaylist NewState []) []).version ≠
      (handlePlaylist NewState []).version := by decide

/-- C5 amended: every application of a playlist event increments the
version by exactly one, so the second application of an identical payload
raises the version by one instead of leaving it unchanged. -/
theorem c5_handlePlaylist_version (s : State) (entries : List MpvPlaylistEntry) :
    (handlePlaylist (handlePlaylist s entries) entries).version =
      (handlePlaylist s entries).version + 1 := rfl

/-! ### C2 -/

/-- A sample track absent from the playlist in the C2 scenario. -/
def trackX : Track :=
  { title := "X", duration := 0, uploader := "", thumbnail := ""
    url := "", webpageURL := "", isLive := false }

/-- State for the C2 scenario: one metadata entry under "x", inserted at
instant 940 with "now" = 1000 and a 5-minute window of 300, i.e. well
inside the grace period the spec prescribes. -/
def st2 : State :=
  { NewState with
    version := 1
    metadata := fun k => if k = "x" then some trackX else none
    metaAddedAt := fun k => if k = "x" then some 940 else none }

/-- C2 counterexample: the entry under "x" was inserted within the last
5 minutes (940 ≥ 1000 − 300) and is absent from the new playlist, so per
the claim it must survive the prune; the event router removes it. -/
theorem c2_counterexample :
    (1000 : Int) - 300 ≤ 940 ∧ st2.metaAddedAt "x" = some 940 ∧
      (handlePlaylist st2 []).metadata "x" = none :=
  ⟨by decide, rfl, rfl⟩

/-- C2 amended: after a playlist property-change event the event router
prunes with the zero cutoff, so every metadata entry whose filename is
absent from the new playlist is removed regardless of its insertion
timestamp; the 5-minute grace period is not applied. -/
theorem c2_prune_removes_absent (s : State) (entries : List MpvPlaylistEntry) (k : String)
    (h : ∀ e ∈ entries, e.filename ≠ k) :
    (handlePlaylist s entries).metadata k = none := by
  have hin : entries.any (fun e => e.filename = k) = false := by
    simp only [List.any_eq_false, decide_eq_true_eq]
    exact h
  cases hm : s.metadata k with
  | none =>
    simp [handlePlaylist, State.PruneMetadata, State.PruneMetadataBefore, State.SetPlaylist,
      hm, hin]
  | some t =>
    simp [handlePlaylist, State.PruneMetadata, State.PruneMetadataBefore, State.SetPlaylist,
      hm, hin]
    exact h

/-- Witness for the amended C2 at the concrete C2 state. -/
theorem c2_witness :
    (∀ e ∈ ([] : List MpvPlaylistEntry), e.filename ≠ "x") ∧
      (handlePlaylist st2 []).metadata "x" = none :=
  ⟨by simp, c2_prune_removes_absent st2 [] "x" (by simp)⟩

/-! ### C4 -/

/-- Previous snapshot of the delta-vs-full scenario: version 7, a
one-item queue, current time 12. -/
def snap7 : Snapshot :=
  { version := 7, status := .playing, currentTime := 12, duration := 180
    queue := [{ index := 0, filename := "a" }], history := [], upcoming := []
    currentIdx := 0, nowPlaying := some { index := 0, filename := "a" } }

/-- Current snapshot of the scenario: version 8, same queue, current time
13.5 (= 27/2), everything else unchanged. -/
def snap8 : Snapshot := { snap7 with version := 8, currentTime := mkRat 27 2 }

/-- The delta the code actually computes for the scenario. -/
def delta78 : Delta :=
  { version := 8, currentTime := some (mkRat 27 2), duration := some 180
    status := some .playing, currentIdx := some 0 }

/-- C4 counterexample: for the version-7 → version-8 snapshots where only
`current_time` changed, the computed delta also carries `duration`,
`status` and `current_index`, contradicting "no other fields". -/
theorem c4_counterexample :
    ComputeDelta snap7 snap8 = some delta78 ∧ delta78.duration ≠ none ∧
      delta78.status ≠ none ∧ delta78.currentIdx ≠ none := by decide

/-- C4 amended: for snapshots A (version 7) and B (version 8) with
structurally equal queues where only `current_time` changed, the delta
carries version 8 and the new `current_time` together with `duration`,
`status` and `current_index`, each populated with its unchanged value. -/
theorem c4_delta_full_fields (A B : Snapshot) (hA : A.version = 7) (hB : B.version = 8)
    (hq : queueChanged A.queue B.queue = false)
    (ht : B.currentTime ≠ A.currentTime) (hd : B.duration = A.duration)
    (hs : B.status = A.status) (hi : B.currentIdx = A.currentIdx) :
    ComputeDelta A B = some
      { version := 8, currentTime := some B.currentTime, duration := some A.duration
        status := some A.status, currentIdx := some A.currentIdx } := by
  unfold ComputeDelta
  rw [if_neg (by rw [hA]; decide), if_pos (by rw [hA, hB]; decide), if_neg (by rw [hq]; simp)]
  rw [hB, hd, hs, hi]

/-- Witness for the amended C4 at the concrete scenario snapshots. -/
theorem c4_witness : ComputeDelta snap7 snap8 = some delta78 := by
  have h := c4_delta_full_fields snap7 snap8 rfl rfl (by decide) (by decide) rfl rfl rfl
  exact h

/-! ### C6 -/

/-- The client state after one successful `Close`. -/
def ipcClosedOnce : IPCClient := { quitClosed := true, connClosed := true }

/-- C6 counterexample: the first `Close` succeeds, but a second `Close`
panics (Go `close` on an already-closed channel), so `Close` is not
idempotent. -/
theorem c6_counterexample :
    IPCClient.Close NewIPCClient = .ok ipcClosedOnce ∧
      IPCClient.Close ipcClosedOnce = .panicClosedChannel := by decide

/-- C6 amended: `Close` is not idempotent — a second call panics by
closing the already-closed quit channel — and an exec call still pending
at close time is not failed with a closed error: it receives no reply and
fails with the 5-second timeout. -/
theorem c6_close_behaviour :
    IPCClient.Close NewIPCClient = .ok ipcClosedOnce ∧
      IPCClient.Close ipcClosedOnce = .panicClosedChannel ∧
      execAwait none = .timeout ∧ execAwait none ≠ .closed := by decide

/-! ### C7 -/

/-- C7: an exec call that receives a matching reply fails with the remote
error string exactly when that string is neither empty nor "success",
returns the reply's data otherwise, and on every completion path the
pending table retains no entry for the call's request id. -/
theorem c7_exec_reply (tbl : List Nat) (reqID : Nat) (resp : Response) :
    ((IPCClient.Exec tbl reqID (some resp)).1 = .remoteError resp.error ↔
      (resp.error ≠ "success" ∧ resp.error ≠ "")) ∧
    ((resp.error = "success" ∨ resp.error = "") →
      (IPCClient.Exec tbl reqID (some resp)).1 = .data resp.data) ∧
    (∀ reply : Option Response, reqID ∉ (IPCClient.Exec tbl reqID reply).2) := by
  refine ⟨?_, ?_, ?_⟩
  · by_cases h : resp.error ≠ "success" ∧ resp.error ≠ ""
    · simp [IPCClient.Exec, execAwait, h]
    · simp only [IPCClient.Exec, execAwait, if_neg h]
      constructor
      · intro hcontra
        exact absurd hcontra (by simp)
      · intro hcontra
        exact absurd hcontra h
  · intro h
    have hne : ¬ (resp.error ≠ "success" ∧ resp.error ≠ "") := by
      rcases h with h | h <;> simp [h]
    simp [IPCClient.Exec, execAwait, hne]
  · intro reply
    simp [IPCClient.Exec, pendingDelete, pendingInsert, List.mem_filter]

/-- Witness for C7 at a concrete failing reply. -/
theorem c7_witness :
    (IPCClient.Exec [] 1 (some { requestID := 1, error := "boom", data := .null })).1 =
        .remoteError "boom" ∧
      1 ∉ (IPCClient.Exec [] 1 (some { requestID := 1, error := "boom", data := .null })).2 := by
  have h := c7_exec_reply [] 1 { requestID := 1, error := "boom", data := .null }
  exact ⟨h.1.mpr (by decide), h.2.2 (some { requestID := 1, error := "boom", data := .null })⟩

/-! ### C8 -/

/-- The state used against C8. -/
def st8 : State := { NewState with version := 3 }

/-- C8 counterexample: `SetDuration 5` changes the snapshot-projected
`duration` (a field other than `current_time`) yet leaves the version
unchanged. -/
theorem c8_counterexample :
    (st8.SetDuration 5).version = st8.version ∧
      (st8.SetDuration 5).snapshot.duration ≠ st8.snapshot.duration :=
  ⟨setDuration_version st8 5, by decide⟩

/-- C8 amended: the setters for idle, pause (on change), playlist,
playlist position (on change) and metadata each increment the version by
exactly one, while `SetTimePos` and `SetDuration` never change the
version, even though `SetDuration` changes the projected duration. -/
theorem c8_version_discipline :
    (∀ (s : State) (b : Bool), (s.SetIdle b).version = s.version + 1) ∧
    (∀ (s : State) (b : Bool), s.paused ≠ b → (s.SetPaused b).version = s.version + 1) ∧
    (∀ (s : State) (entries : List MpvPlaylistEntry),
      (s.SetPlaylist entries).version = s.version + 1) ∧
    (∀ (s : State) (p : Int), p ≠ s.playlistPos →
      (s.SetPlaylistPos p).version = s.version + 1) ∧
    (∀ (s : State) (url : String) (track : Track) (now : Int),
      (s.StoreMetadata url track now).version = s.version + 1) ∧
    (∀ (s : State) (t : Rat), (s.SetTimePos t).version = s.version) ∧
    (∀ (s : State) (d : Rat), (s.SetDuration d).version = s.version) := by
  refine ⟨fun s b => rfl, fun s b h => ?_, fun s entries => rfl, fun s p h => ?_,
    fun s url track now => rfl, fun s t => rfl, fun s d => setDuration_version s d⟩
  · simp [State.SetPaused, h]
  · simp [State.SetPlaylistPos, h]

/-- Witness for the amended C8 at concrete states. -/
theorem c8_witness :
    (NewState.SetPlaylist []).version = 1 ∧ (st8.SetDuration 5).version = 3 := by
  have h := c8_version_discipline
  exact ⟨h.2.2.1 NewState [], h.2.2.2.2.2.2 st8 5⟩

/-! ### C1 -/

/-- Snapshot A of the C1 counterexample: version 1, playing, time 0. -/
def snapA : Snapshot :=
  { version := 1, status := .playing, currentTime := 0, duration := 0
    queue := [], history := [], upcoming := [], currentIdx := -1, nowPlaying := none }

/-- Snapshot B of the C1 counterexample: same version and queue, but
paused and at time 1. -/
def snapB : Snapshot := { snapA with status := .paused, currentTime := 1 }

/-- The delta the code computes between `snapA` and `snapB`. -/
def deltaAB : Delta := { version := 1, currentTime := some 1 }

/-- C1 counterexample: with structurally equal queues and equal versions,
`ComputeDelta` returns a delta that does not carry `status`, so applying
it to A leaves A's status and disagrees with B on a Delta-projected
field. -/
theorem c1_counterexample :
    queueChanged snapA.queue snapB.queue = false ∧ snapA.version ≤ snapB.version ∧
      ComputeDelta snapA snapB = some deltaAB ∧
      (applyDelta snapA deltaAB).status ≠ snapB.status := by decide

/-- C1 amended: under the claim's hypotheses the applied delta always
agrees with B on `version`, `current_time` and `duration`; it agrees on
`status` and `current_index` as well whenever the two versions differ
(when they are equal the delta carries neither field, so A's values
persist). -/
theorem c1_applyDelta_agrees (A B : Snapshot) (hq : queueChanged A.queue B.queue = false)
    (hv : A.version ≤ B.version) (d : Delta) (hd : ComputeDelta A B = some d) :
    (applyDelta A d).version = B.version ∧
    (applyDelta A d).currentTime = B.currentTime ∧
    (applyDelta A d).duration = B.duration ∧
    (A.version ≠ B.version →
      (applyDelta A d).status = B.status ∧ (applyDelta A d).currentIdx = B.currentIdx) := by
  unfold ComputeDelta at hd
  by_cases h0 : A.version = 0
  · rw [if_pos h0] at hd
    exact absurd hd (by simp)
  · rw [if_neg h0] at hd
    by_cases hver : B.version ≠ A.version
    · rw [if_pos hver, if_neg (by rw [hq]; simp)] at hd
      cases hd
      refine ⟨rfl, rfl, rfl, fun _ => ⟨rfl, rfl⟩⟩
    · rw [if_neg hver] at hd
      push_neg at hver
      by_cases heq : B.currentTime = A.currentTime ∧ B.duration = A.duration
      · rw [if_pos heq] at hd
        exact absurd hd (by simp)
      · rw [if_neg heq] at hd
        cases hd
        refine ⟨rfl, ?_, ?_, fun hne => absurd hver.symm hne⟩
        · by_cases ht : B.currentTime ≠ A.currentTime
          · simp [applyDelta, ht]
          · push_neg at ht
            simp [applyDelta, ht]
        · by_cases hdur : B.duration ≠ A.duration
          · simp [applyDelta, hdur]
          · push_neg at hdur
            simp [applyDelta, hdur]

/-- Witness for the amended C1 at the concrete version-7 → version-8
scenario snapshots. -/
theorem c1_witness :
    (applyDelta snap7 delta78).currentTime = snap8.currentTime ∧
      (applyDelta snap7 delta78).status = snap8.status := by
  have h := c1_applyDelta_agrees snap7 snap8 (by decide) (by decide) delta78 (by decide)
  exact ⟨h.2.1, (h.2.2.2 (by decide)).1⟩

/-! ### C9 -/

lemma playlistMoveToTail_append (A : List String) (b : String) (R : List String) :
    playlistMoveToTail (A ++ b :: R) A.length = A ++ (R ++ [b]) := by
  induction A with
  | nil => rfl
  | cons a A ih => simpa [playlistMoveToTail] using ih

lemma moveIter_append (A : List String) (B C : List String) :
    moveIter B.length A.length (A ++ (B ++ C)) = A ++ (C ++ B) := by
  induction B generalizing C with
  | nil => simp [moveIter]
  | cons b B ih =>
    show moveIter (B.length + 1) A.length (A ++ (b :: B ++ C)) = A ++ (C ++ b :: B)
    rw [moveIter]
    have h1 : (A ++ (b :: B ++ C)) = A ++ b :: (B ++ C) := by simp
    rw [h1, playlistMoveToTail_append A b (B ++ C)]
    have h2 : (A ++ ((B ++ C) ++ [b])) = A ++ (B ++ (C ++ [b])) := by simp
    rw [h2, ih (C ++ [b])]
    simp

lemma foldl_applyCall_replicate_move (m : MpvModel) (k : Nat) (i : Int) :
    List.foldl applyCall m (List.replicate k (.playlistMove i (-1))) =
      { m with playlist := moveIter k i.toNat m.playlist } := by
  induction k generalizing m with
  | zero => simp [moveIter]
  | succ k ih =>
    rw [List.replicate_succ, List.foldl_cons, ih]
    simp [applyCall, moveIter]

/-- C9: for a play-at-index command with target `t` after reading current
position `c`: when `0 ≤ c < t < |P|` the issued commands are exactly
`t − c − 1` copies of `playlist-move (c+1) (-1)` followed by
`playlist-play-index (c+1)`; under the claim's move-to-tail semantics the
resulting playlist is the prefix up to the current item, then the items
from the target on, then the skipped items `P[c+1..t)` at the tail in
their original relative order, with the item originally at `t` now
current at index `c+1`.  When `c < 0` or `t ≤ c` the only command issued
is `playlist-play-index t`. -/
theorem c9_playIndex (P : List String) (c t : Nat) (h1 : c < t) (h2 : t < P.length) :
    PlayIndex c t = List.replicate (t - c - 1) (.playlistMove ((c : Int) + 1) (-1)) ++
        [.playlistPlayIndex ((c : Int) + 1)] ∧
    (applyCalls { playlist := P, pos := (c : Int) } (PlayIndex c t)).playlist =
        P.take (c + 1) ++ P.drop t ++ (P.drop (c + 1)).take (t - c - 1) ∧
    (applyCalls { playlist := P, pos := (c : Int) } (PlayIndex c t)).pos = (c : Int) + 1 ∧
    (applyCalls { playlist := P, pos := (c : Int) } (PlayIndex c t)).playlist.get? (c + 1) =
        P.get? t ∧
    (∀ c0 t0 : Int, c0 < 0 ∨ t0 ≤ c0 → PlayIndex c0 t0 = [.playlistPlayIndex t0]) := by
  have hcP : c + 1 ≤ P.length := by omega
  have hcalls : PlayIndex c t =
      List.replicate (t - c - 1) (.playlistMove ((c : Int) + 1) (-1)) ++
        [.playlistPlayIndex ((c : Int) + 1)] := by
    unfold PlayIndex
    rw [if_neg (by push_neg; constructor <;> [positivity; exact_mod_cast h1])]
    congr 1
    congr 1
    omega
  have hA : (P.take (c + 1)).length = c + 1 := by
    simp [hcP]
  have hB : ((P.drop (c + 1)).take (t - c - 1)).length = t - c - 1 := by
    simp
    omega
  have hdecomp : P = P.take (c + 1) ++ ((P.drop (c + 1)).take (t - c - 1) ++ P.drop t) := by
    have hd : P.drop t = (P.drop (c + 1)).drop (t - c - 1) := by
      rw [List.drop_drop]
      congr 1
      omega
    rw [hd, List.take_append_drop, List.take_append_drop]
  have happly : (applyCalls { playlist := P, pos := (c : Int) } (PlayIndex c t)).playlist =
        P.take (c + 1) ++ (P.drop t ++ (P.drop (c + 1)).take (t - c - 1)) ∧
      (applyCalls { playlist := P, pos := (c : Int) } (PlayIndex c t)).pos = (c : Int) + 1 := by
    rw [hcalls]
    unfold applyCalls
    rw [List.foldl_append, foldl_applyCall_replicate_move]
    simp only [List.foldl_cons, List.foldl_nil, applyCall]
    have hiN : ((c : Int) + 1).toNat = c + 1 := by omega
    rw [hiN]
    refine ⟨?_, trivial⟩
    conv_lhs => rw [hdecomp]
    have := moveIter_append (P.take (c + 1)) ((P.drop (c + 1)).take (t - c - 1)) (P.drop t)
    rw [hB, hA] at this
    exact this
  refine ⟨hcalls, by rw [happly.1, List.append_assoc], happly.2, ?_, ?_⟩
  · rw [happly.1]
    rw [List.get?_append_right (by omega)]
    rw [hA]
    have hz : c + 1 - (c + 1) = 0 := by omega
    rw [hz]
    rw [List.get?_append (by simp; omega)]
    rw [List.get?_drop]
    congr 1
  · intro c0 t0 h
    unfold PlayIndex
    rw [if_pos h]

/-- Witness for C9: playlist [A,B,C,D,E] at position 1, play-index 3
issues one `playlist-move(2,-1)` and `playlist-play-index(2)`, producing
[A,B,D,E,C] with position 2. -/
theorem c9_witness :
    PlayIndex 1 3 = [.playlistMove 2 (-1), .playlistPlayIndex 2] ∧
    (applyCalls { playlist := ["A", "B", "C", "D", "E"], pos := 1 } (PlayIndex 1 3)).playlist =
        ["A", "B", "D", "E", "C"] ∧
    (applyCalls { playlist := ["A", "B", "C", "D", "E"], pos := 1 } (PlayIndex 1 3)).pos = 2 := by
  have h := c9_playIndex ["A", "B", "C", "D", "E"] 1 3 (by decide) (by decide)
  exact ⟨h.1, h.2.1, h.2.2.1⟩

end Skaldi
